import Mathlib

/-!
Verification of the wtast schema (src/dev/lib/wtast.ts): a shallow embedding of
the node-kind taxonomy, the content-category registry, the per-variant child
and attribute constraints, and the well-formedness predicate they induce.

Node kinds are the discriminated variants declared in the source; content
categories are the membership lists of the source's content maps; trees are a
single recursive node type carrying children, an optional literal value,
optional node-valued attributes (Redirect.value, Image.link, Image.caption)
and a record of scalar attributes.
-/

namespace Wtast

/-- The node kinds of the schema: one per interface declared in wtast.ts.
`br` stands for the source's Break variant and `synHighlighting` for its
SyntaxHighlighting variant (names adjusted for Lean). `delete` is the Delete
variant, declared in the source but registered in no content map; `file` is
likewise registered in no content map. -/
inductive Kind : Type where
  | root
  | paragraph
  | heading
  | thematicBreak
  | list
  | listItem
  | table
  | tableRow
  | tableCell
  | html
  | definition
  | footnoteDefinition
  | text
  | emphasis
  | strong
  | delete
  | br
  | link
  | linkReference
  | footnote
  | footnoteReference
  | image
  | file
  | signature
  | redirect
  | toc
  | nowiki
  | references
  | gallery
  | math
  | synHighlighting
  deriving DecidableEq, Fintype, Repr

/-- BlockContentMap (wtast.ts lines 22-43): the kinds registered as block
content. -/
def blockContent : List Kind :=
  [.paragraph, .heading, .thematicBreak, .list, .table, .html,
   .signature, .redirect, .toc,
   .nowiki, .references, .gallery, .math, .synHighlighting]

/-- DefinitionContentMap (lines 57-60). -/
def definitionContent : List Kind :=
  [.definition, .footnoteDefinition]

/-- StaticPhrasingContentMap (lines 75-89). -/
def staticPhrasingContent : List Kind :=
  [.text, .emphasis, .strong, .html, .br, .footnote, .footnoteReference,
   .nowiki, .references, .gallery, .math, .synHighlighting]

/-- PhrasingContentMap (lines 104-107): extends StaticPhrasingContentMap and
adds link and linkReference. -/
def phrasingContent : List Kind :=
  staticPhrasingContent ++ [.link, .linkReference]

/-- ListContentMap (lines 121-123). -/
def listContent : List Kind := [.listItem]

/-- TableContentMap (lines 137-139). -/
def tableContent : List Kind := [.tableRow]

/-- RowContentMap (lines 153-155). -/
def rowContent : List Kind := [.tableCell]

/-- Content (lines 157-162): TopLevelContent | ListContent | TableContent |
RowContent | PhrasingContent, with TopLevelContent = BlockContent |
DefinitionContent (line 164). -/
def content : List Kind :=
  blockContent ++ definitionContent ++ listContent ++ tableContent
    ++ rowContent ++ phrasingContent

/-- Every kind registered in some content-category map. -/
def allRegisteredKinds : List Kind :=
  blockContent ++ definitionContent ++ staticPhrasingContent
    ++ phrasingContent ++ listContent ++ tableContent ++ rowContent

/-- The literal `type` discriminant each variant interface declares, if any.
Every interface of wtast.ts declares `type: '<tag>'` except Nowiki
(line 407), which is an empty interface extending the unist Node and so
declares no discriminant at all. -/
def declaredTag : Kind → Option String
  | .root => some "root"
  | .paragraph => some "paragraph"
  | .heading => some "heading"
  | .thematicBreak => some "thematicBreak"
  | .list => some "list"
  | .listItem => some "listItem"
  | .table => some "table"
  | .tableRow => some "tableRow"
  | .tableCell => some "tableCell"
  | .html => some "html"
  | .definition => some "definition"
  | .footnoteDefinition => some "footnoteDefinition"
  | .text => some "text"
  | .emphasis => some "emphasis"
  | .strong => some "strong"
  | .delete => some "delete"
  | .br => some "break"
  | .link => some "link"
  | .linkReference => some "linkReference"
  | .footnote => some "footnote"
  | .footnoteReference => some "footnoteReference"
  | .image => some "image"
  | .file => some "file"
  | .signature => some "signature"
  | .redirect => some "redirect"
  | .toc => some "toc"
  | .nowiki => none
  | .references => some "references"
  | .gallery => some "gallery"
  | .math => some "math"
  | .synHighlighting => some "syntaxHighlighting"

/-- ReferenceType (line 5): 'shortcut' | 'collapsed' | 'full'. -/
inductive RefTy : Type where
  | shortcut
  | collapsed
  | full
  deriving DecidableEq, Repr

/-- ASCII decimal digit. -/
def isDigit (c : Char) : Bool := '0' ≤ c && c ≤ '9'

/-- A decimal numeral with an optional fractional part: digits, optionally
followed by a dot and digits, with at least one digit in total. -/
def digitsOptFrac (cs : List Char) : Bool :=
  let intPart := cs.takeWhile isDigit
  match cs.dropWhile isDigit with
  | [] => !intPart.isEmpty
  | '.' :: fr => fr.all isDigit && (!intPart.isEmpty || !fr.isEmpty)
  | _ => false

/-- Models the strings matched by the TypeScript template-literal placeholder
for number: an optional leading minus sign followed by a decimal numeral with
an optional fractional part. -/
def numChars (cs : List Char) : Bool :=
  match cs with
  | '-' :: rest => digitsOptFrac rest
  | _ => digitsOptFrac cs

def isNumberString (s : String) : Bool := numChars s.data

/-- Image.kind (lines 326-333): 'thumb' | 'thumbnail' | thumb=<string> |
thumbnail=<string> | 'frame' | 'framed' | 'frameless'; a <string> placeholder
matches any string. -/
def kindAttrOK (s : String) : Bool :=
  decide (s ∈ (["thumb", "thumbnail", "frame", "framed", "frameless"] : List String))
  || s.data.take 6 = "thumb=".data
  || s.data.take 10 = "thumbnail=".data

/-- Image.location (line 335): 'left' | 'right' | 'center' | 'none'. -/
def locationOK (s : String) : Bool :=
  decide (s ∈ (["left", "right", "center", "none"] : List String))

/-- Image.aligntment (lines 336-344; the source spells the attribute
`aligntment`): 'baseline' | 'sub' | 'super' | 'top' | 'text-top' | 'middle' |
'bottom' | 'text-bottom'. -/
def aligntmentOK (s : String) : Bool :=
  decide (s ∈ (["baseline", "sub", "super", "top", "text-top",
                "middle", "bottom", "text-bottom"] : List String))

/-- Strip a trailing "px", if present. -/
def stripPx (cs : List Char) : Option (List Char) :=
  match cs.reverse with
  | 'x' :: 'p' :: rest => some rest.reverse
  | _ => none

/-- The body before "px" in a size value: <number>, x<number>, or
<number>x<number>. -/
def pxBodyOK (body : List Char) : Bool :=
  numChars body
  || (match body with
      | 'x' :: rest => numChars rest
      | _ => false)
  || (match body.splitOn 'x' with
      | [w, h] => numChars w && numChars h
      | _ => false)

/-- Image.size (lines 345-350): 'upright' | upright=<number> | <number>px |
x<number>px | <number>x<number>px. -/
def sizeOK (s : String) : Bool :=
  decide (s = "upright")
  || (s.data.take 8 = "upright=".data && numChars (s.data.drop 8))
  || (match stripPx s.data with
      | some body => pxBodyOK body
      | none => false)

/-- File.thumbtime (line 368): the literal 'Time'. -/
def thumbtimeOK (s : String) : Bool := decide (s = "Time")

/-- Gallery.attributes.mode (lines 423-429). -/
def galleryModeOK (s : String) : Bool :=
  decide (s ∈ (["traditional", "nolines", "packed", "packed-overlay",
                "packed-hover", "slideshow"] : List String))

/-- Gallery.attributes.showfilename (line 434): the literal 'yes'. -/
def showfilenameOK (s : String) : Bool := decide (s = "yes")

/-- A check on an optional attribute: absent is fine, present must satisfy
the pattern. -/
def optOK (p : α → Bool) : Option α → Bool
  | none => true
  | some x => p x

/-- A check on a required attribute: must be present and satisfy the
pattern. -/
def reqOK (p : α → Bool) : Option α → Bool
  | none => false
  | some x => p x

/-- Gallery.attributes (lines 422-437): the free-form presentation bag. -/
structure GalleryAttributes where
  mode : Option String := none
  caption : Option String := none
  widths : Option String := none
  heights : Option String := none
  perrow : Option Rat := none
  showfilename : Option String := none
  classAttr : Option String := none
  style : Option String := none
  deriving DecidableEq, Repr

/-- Heading.depth (line 195): 1 | 2 | 3 | 4 | 5 | 6. -/
def headingDepthOK (d : Int) : Bool :=
  decide (d = 1) || decide (d = 2) || decide (d = 3)
    || decide (d = 4) || decide (d = 5) || decide (d = 6)

/-- The scalar attributes a node may carry, one optional slot per attribute
name occurring in wtast.ts. TypeScript numbers are modelled as rationals;
`pfx` models the source's File/Image name attribute spelled `prefix` there,
`classAttr` its `class`, `endAttr` its `end`, all renamed because Lean
reserves those words. `start` is shared by List (start numbering) and File
(start time), `definition` is List's definition flag. -/
structure Attrs where
  depth : Option Int := none
  url : Option String := none
  title : Option String := none
  identifier : Option String := none
  label : Option String := none
  referenceType : Option RefTy := none
  checked : Option Bool := none
  spread : Option Bool := none
  ordered : Option Bool := none
  definition : Option Bool := none
  start : Option Rat := none
  indent : Option Rat := none
  pfx : Option String := none
  name : Option String := none
  kind : Option String := none
  border : Option Bool := none
  location : Option String := none
  aligntment : Option String := none
  size : Option String := none
  alt : Option String := none
  langtag : Option String := none
  classAttr : Option String := none
  upright : Option Rat := none
  showName : Option Bool := none
  showTime : Option Bool := none
  forced : Option Bool := none
  disabled : Option Bool := none
  page : Option Rat := none
  thumbtime : Option String := none
  endAttr : Option Rat := none
  attributes : Option GalleryAttributes := none
  deriving DecidableEq, Repr

/-- A tree node: its kind, its ordered children, an optional literal string
value (the Literal mixin), three optional node-valued attribute slots
(`target` models Redirect.value, which holds a Link node; `linkA` models
Image.link; `captionA` models Image.caption), and its scalar attributes. -/
inductive WtNode : Type where
  | mk (kind : Kind) (children : List WtNode) (value : Option String)
       (target : Option WtNode) (linkA : Option WtNode) (captionA : Option WtNode)
       (attrs : Attrs) : WtNode

def WtNode.kind : WtNode → Kind
  | .mk k _ _ _ _ _ _ => k

def WtNode.children : WtNode → List WtNode
  | .mk _ cs _ _ _ _ _ => cs

def WtNode.value : WtNode → Option String
  | .mk _ _ v _ _ _ _ => v

def WtNode.target : WtNode → Option WtNode
  | .mk _ _ _ tg _ _ _ => tg

def WtNode.linkA : WtNode → Option WtNode
  | .mk _ _ _ _ la _ _ => la

def WtNode.captionA : WtNode → Option WtNode
  | .mk _ _ _ _ _ ca _ => ca

def WtNode.attrs : WtNode → Attrs
  | .mk _ _ _ _ _ _ a => a

/-- The content category each parent kind declares for its children slot,
straight from the `children:` field of each interface; kinds whose interface
declares no children field map to the empty list (they are leaves). -/
def childSpec : Kind → List Kind
  | .root => content
  | .paragraph => phrasingContent
  | .heading => phrasingContent
  | .thematicBreak => []
  | .list => listContent
  | .listItem => blockContent ++ definitionContent
  | .table => tableContent
  | .tableRow => rowContent
  | .tableCell => phrasingContent
  | .html => []
  | .definition => []
  | .footnoteDefinition => blockContent ++ definitionContent
  | .text => []
  | .emphasis => phrasingContent
  | .strong => phrasingContent
  | .delete => phrasingContent
  | .br => []
  | .link => staticPhrasingContent
  | .linkReference => staticPhrasingContent
  | .footnote => phrasingContent
  | .footnoteReference => []
  | .image => []
  | .file => []
  | .signature => []
  | .redirect => []
  | .toc => []
  | .nowiki => []
  | .references => []
  | .gallery => [.image]
  | .math => []
  | .synHighlighting => []

/-- A child of kind `c` is legal under a parent of kind `p`. -/
def childAllowed (p c : Kind) : Bool := c ∈ childSpec p

/-- Every immediate child's kind is legal under parent kind `k`. -/
def childrenKindsOK (k : Kind) (cs : List WtNode) : Bool :=
  cs.all (fun c => childAllowed k c.kind)

/-- An optional node-valued attribute, when present, must hold a node of the
stated kind. -/
def nodeKindOpt (k : Kind) : Option WtNode → Bool
  | none => true
  | some n => decide (n.kind = k)

/-- Image.caption (line 356): when present it holds a phrasing-content
node. -/
def captionKindOK : Option WtNode → Bool
  | none => true
  | some n => decide (n.kind ∈ phrasingContent)

/-- Gallery.attributes constraints (lines 422-437). -/
def galleryAttributesOK (g : GalleryAttributes) : Bool :=
  optOK galleryModeOK g.mode && optOK showfilenameOK g.showfilename

/-- The scalar attribute constraints shared by Image (lines 322-357) and,
via Omit, File (lines 365-371): required url (Resource), required
prefix ∈ File | Image, required name, and the optional pattern-checked
enumerated attributes. -/
def imageScalarOK (a : Attrs) : Bool :=
  a.url.isSome
  && reqOK (fun s => decide (s ∈ (["File", "Image"] : List String))) a.pfx
  && a.name.isSome
  && optOK kindAttrOK a.kind
  && optOK locationOK a.location
  && optOK aligntmentOK a.aligntment
  && optOK sizeOK a.size

/-- The attribute constraints of each variant definition: required fields
must be present, enumerated and pattern-typed fields must match their
declared forms, node-valued attribute slots must hold nodes of the declared
kind. -/
def attrsOK (k : Kind) (v : Option String) (tg la ca : Option WtNode) (a : Attrs) : Bool :=
  match k with
  | .root => true
  | .paragraph => true
  | .heading => reqOK headingDepthOK a.depth
  | .thematicBreak => true
  | .list => true
  | .listItem => true
  | .table => true
  | .tableRow => true
  | .tableCell => true
  | .html => v.isSome
  | .definition => a.identifier.isSome && a.url.isSome
  | .footnoteDefinition => a.identifier.isSome
  | .text => v.isSome
  | .emphasis => true
  | .strong => true
  | .delete => true
  | .br => true
  | .link => a.url.isSome
  | .linkReference => a.identifier.isSome && a.referenceType.isSome
  | .footnote => true
  | .footnoteReference => a.identifier.isSome
  | .image => imageScalarOK a && nodeKindOpt .link la && captionKindOK ca
  | .file => imageScalarOK a && nodeKindOpt .link la && captionKindOK ca
      && optOK thumbtimeOK a.thumbtime
  | .signature => a.showName.isSome && a.showTime.isSome
  | .redirect => (match tg with
      | some t => decide (t.kind = .link)
      | none => false)
  | .toc => true
  | .nowiki => true
  | .references => true
  | .gallery => optOK galleryAttributesOK a.attributes
  | .math => v.isSome
  | .synHighlighting => v.isSome

mutual

/-- A tree in which every node's children belong to the content category its
variant definition declares for them (the child-type constraints alone, with
no attribute checks), recursively, including the nodes embedded in attribute
slots. -/
def wfShape : WtNode → Bool
  | .mk k cs _ tg la ca _ =>
      childrenKindsOK k cs && wfShapeList cs
        && wfShapeOpt tg && wfShapeOpt la && wfShapeOpt ca

def wfShapeList : List WtNode → Bool
  | [] => true
  | c :: cs => wfShape c && wfShapeList cs

def wfShapeOpt : Option WtNode → Bool
  | none => true
  | some c => wfShape c

end

mutual

/-- A fully well-formed tree: every node satisfies both its declared
child-type constraints and its variant's attribute constraints,
recursively, including the nodes embedded in attribute slots. -/
def wfNode : WtNode → Bool
  | .mk k cs v tg la ca a =>
      childrenKindsOK k cs && attrsOK k v tg la ca a && wfNodeList cs
        && wfNodeOpt tg && wfNodeOpt la && wfNodeOpt ca

def wfNodeList : List WtNode → Bool
  | [] => true
  | c :: cs => wfNode c && wfNodeList cs

def wfNodeOpt : Option WtNode → Bool
  | none => true
  | some c => wfNode c

end

/-- The interactive kinds: link and linkReference. -/
def isInteractiveKind (k : Kind) : Bool :=
  decide (k = Kind.link) || decide (k = Kind.linkReference)

mutual

/-- A link or linkReference node occurs somewhere in this node (itself
included), looking through children and node-valued attribute slots. -/
def hasInteractive : WtNode → Bool
  | .mk k cs _ tg la ca _ =>
      isInteractiveKind k || hasInteractiveList cs
        || hasInteractiveOpt tg || hasInteractiveOpt la || hasInteractiveOpt ca

def hasInteractiveList : List WtNode → Bool
  | [] => false
  | c :: cs => hasInteractive c || hasInteractiveList cs

def hasInteractiveOpt : Option WtNode → Bool
  | none => false
  | some c => hasInteractive c

end

/-- The attribute record of the Image variant (lines 322-357), everything
the interface declares except the `type` discriminant: the Resource mixin's
url and title, the Alternative mixin's alt, and the fields written in the
interface body (`pfx` models the source's `prefix`, `classAttr` its
`class`; `linkAttr` and `caption` hold whole nodes). -/
structure ImageAttrs where
  url : String
  title : Option String := none
  pfx : String
  name : String
  kind : Option String := none
  border : Option Bool := none
  location : Option String := none
  aligntment : Option String := none
  size : Option String := none
  linkAttr : Option WtNode := none
  alt : Option String := none
  langtag : Option String := none
  classAttr : Option String := none
  upright : Option Rat := none
  caption : Option WtNode := none

/-- The attribute record of the File variant (lines 365-371): the source
declares `File extends Omit<Image, 'type'>`, so it carries every ImageAttrs
field, plus page, thumbtime, start and end (`endAttr` models the source's
`end`). -/
structure FileAttrs extends ImageAttrs where
  page : Option Rat := none
  thumbtime : Option String := none
  start : Option Rat := none
  endAttr : Option Rat := none

/-- Written from the claim's words, for comparison with `FileAttrs`: the
file variant's attribute record spelled out field by field — each attribute
the image variant declares, with the same name, value type and optionality,
followed by page, thumbtime, start and end and nothing else. -/
structure FileAttrsSpec where
  url : String
  title : Option String := none
  pfx : String
  name : String
  kind : Option String := none
  border : Option Bool := none
  location : Option String := none
  aligntment : Option String := none
  size : Option String := none
  linkAttr : Option WtNode := none
  alt : Option String := none
  langtag : Option String := none
  classAttr : Option String := none
  upright : Option Rat := none
  caption : Option WtNode := none
  page : Option Rat := none
  thumbtime : Option String := none
  start : Option Rat := none
  endAttr : Option Rat := none

/-- The value constraints the Image interface places on an ImageAttrs
record: prefix is 'File' or 'Image' and the enumerated attributes match
their declared literal or parametrized forms; the node-valued slots hold
nodes of their declared types. -/
def imageAttrsValid (a : ImageAttrs) : Bool :=
  decide (a.pfx ∈ (["File", "Image"] : List String))
  && optOK kindAttrOK a.kind
  && optOK locationOK a.location
  && optOK aligntmentOK a.aligntment
  && optOK sizeOK a.size
  && nodeKindOpt .link a.linkAttr
  && captionKindOK a.caption

/-- The value constraints the File interface places on a FileAttrs record:
everything Image requires, plus thumbtime, when present, is the literal
'Time' (page, start and end are unconstrained numbers). -/
def fileAttrsValid (f : FileAttrs) : Bool :=
  imageAttrsValid f.toImageAttrs && optOK thumbtimeOK f.thumbtime

/-- Extend an image attribute record to a file attribute record, leaving the
four file-only attributes absent. -/
def fileOfImageAttrs (a : ImageAttrs) : FileAttrs :=
  { toImageAttrs := a }

/-- Field-by-field translation of a FileAttrs record into the claim-side
record. -/
def FileAttrs.toSpecRec (f : FileAttrs) : FileAttrsSpec :=
  { url := f.url, title := f.title, pfx := f.pfx, name := f.name,
    kind := f.kind, border := f.border, location := f.location,
    aligntment := f.aligntment, size := f.size, linkAttr := f.linkAttr,
    alt := f.alt, langtag := f.langtag, classAttr := f.classAttr,
    upright := f.upright, caption := f.caption, page := f.page,
    thumbtime := f.thumbtime, start := f.start, endAttr := f.endAttr }

/-- Field-by-field translation of the claim-side record back into
FileAttrs. -/
def FileAttrsSpec.toFileAttrs (g : FileAttrsSpec) : FileAttrs :=
  { url := g.url, title := g.title, pfx := g.pfx, name := g.name,
    kind := g.kind, border := g.border, location := g.location,
    aligntment := g.aligntment, size := g.size, linkAttr := g.linkAttr,
    alt := g.alt, langtag := g.langtag, classAttr := g.classAttr,
    upright := g.upright, caption := g.caption, page := g.page,
    thumbtime := g.thumbtime, start := g.start, endAttr := g.endAttr }

-- Concrete example trees used in the theorems below.

/-- A text leaf. -/
def exText : WtNode := .mk .text [] (some "some text") none none none {}

/-- A well-formed link whose only child is a text leaf. -/
def exPlainLink : WtNode :=
  .mk .link [exText] none none none none { url := some "https://example.org" }

/-- A link containing an emphasis that itself contains a link: every node
satisfies its declared child types (emphasis is static phrasing content, and
the children of emphasis are general phrasing content, which includes
link). -/
def exNestedLink : WtNode :=
  .mk .link
    [.mk .emphasis [exPlainLink] none none none none {}]
    none none none none { url := some "https://example.org/outer" }

/-- A well-formed heading of depth 3. -/
def exHeading : WtNode :=
  .mk .heading [exText] none none none none { depth := some 3 }

/-- A well-formed image child for a gallery. -/
def exGalleryImage : WtNode :=
  .mk .image [] none none none none
    { url := some "My Image.png", pfx := some "Image", name := some "My Image.png" }

/-- A file node, structurally similar to the image above. -/
def exFileNode : WtNode :=
  .mk .file [] none none none none
    { url := some "My Video.ogv", pfx := some "File", name := some "My Video.ogv" }

/-- A gallery whose children are one image and one file node. -/
def exMixedGallery : WtNode :=
  .mk .gallery [exGalleryImage, exFileNode] none none none none {}

/-- A gallery whose only child is an image. -/
def exGallery : WtNode :=
  .mk .gallery [exGalleryImage] none none none none {}

/-- A well-formed one-cell table. -/
def exTable : WtNode :=
  .mk .table
    [.mk .tableRow [.mk .tableCell [exText] none none none none {}] none none none none {}]
    none none none none {}

/-- A well-formed link definition. -/
def exDefinition : WtNode :=
  .mk .definition [] none none none none
    { identifier := some "alpha", url := some "https://example.org/alpha" }

/-- A well-formed footnote definition with one paragraph child. -/
def exFootnoteDef : WtNode :=
  .mk .footnoteDefinition
    [.mk .paragraph [exText] none none none none {}]
    none none none none { identifier := some "fn1" }

/-- A well-formed image with a size attribute. -/
def exSizedImage : WtNode :=
  .mk .image [] none none none none
    { url := some "My Image.png", pfx := some "Image", name := some "My Image.png",
      size := some "upright=0.6", aligntment := some "middle" }

/-- A well-formed redirect: no children, a link node stored in its value
attribute. -/
def exRedirect : WtNode :=
  .mk .redirect [] none
    (some (.mk .link [.mk .text [] (some "United States") none none none {}]
      none none none none { url := some "United States" }))
    none none {}

/-- A well-formed image holding a link node in its link attribute and a text
node (phrasing content) in its caption attribute, with no children. -/
def exImageWithLink : WtNode :=
  .mk .image [] none none
    (some exPlainLink)
    (some (.mk .text [] (some "A caption") none none none {}))
    { url := some "My Image.png", pfx := some "Image", name := some "My Image.png" }

-- Helper lemmas shared by the claim theorems.

theorem wfShape_children (t : WtNode) (h : wfShape t = true) :
    childrenKindsOK t.kind t.children = true := by
  cases t with
  | mk k cs v tg la ca a =>
    simp only [wfShape, Bool.and_eq_true] at h
    exact h.1.1.1.1

theorem wfNode_children (t : WtNode) (h : wfNode t = true) :
    childrenKindsOK t.kind t.children = true := by
  cases t with
  | mk k cs v tg la ca a =>
    simp only [wfNode, Bool.and_eq_true] at h
    exact h.1.1.1.1.1

theorem wfNode_attrs (t : WtNode) (h : wfNode t = true) :
    attrsOK t.kind t.value t.target t.linkA t.captionA t.attrs = true := by
  cases t with
  | mk k cs v tg la ca a =>
    simp only [wfNode, Bool.and_eq_true] at h
    exact h.1.1.1.1.2

theorem childrenKindsOK_leaf (k : Kind) (cs : List WtNode) (hk : childSpec k = [])
    (h : childrenKindsOK k cs = true) : cs = [] := by
  cases cs with
  | nil => rfl
  | cons c cs' =>
    rw [childrenKindsOK, List.all_eq_true] at h
    have hc := h c (List.mem_cons_self c cs')
    rw [childAllowed, hk] at hc
    simp at hc

theorem childAllowed_of_childrenKindsOK {k : Kind} {cs : List WtNode}
    (h : childrenKindsOK k cs = true) {c : WtNode} (hc : c ∈ cs) :
    childAllowed k c.kind = true := by
  rw [childrenKindsOK, List.all_eq_true] at h
  exact h c hc

/-- Claim C1, as stated, is false: this tree satisfies every node's declared
child types, its root is a link node, and an interactive link occurs in the
subtree rooted at one of that link's children (the emphasis child, whose
children are general phrasing content and so may contain links). -/
theorem link_descendant_interactive_counterexample :
    wfShape exNestedLink = true ∧ exNestedLink.kind = Kind.link ∧
      exNestedLink.children.any hasInteractive = true :=
  ⟨by decide, rfl, by decide⟩

/-- Claim C1, amended: in a tree whose nodes satisfy their variant
definitions' declared child types, a link or linkReference node never has a
link or linkReference among its immediate children (link children are drawn
from static phrasing content, which excludes both interactive kinds); deeper
descendants are not so restricted. -/
theorem link_children_not_interactive (t : WtNode) (h : wfShape t = true)
    (hk : isInteractiveKind t.kind = true) :
    t.children.all (fun c => !isInteractiveKind c.kind) = true := by
  have h1 := wfShape_children t h
  rw [List.all_eq_true]
  intro c hc
  have h2 := childAllowed_of_childrenKindsOK h1 hc
  revert hk h2
  generalize t.kind = p
  generalize c.kind = q
  revert p q
  decide

/-- Witness for the amended C1 theorem at a concrete link node. -/
theorem link_children_not_interactive_witness :
    wfShape exPlainLink = true ∧
      exPlainLink.children.all (fun c => !isInteractiveKind c.kind) = true :=
  ⟨by decide, link_children_not_interactive exPlainLink (by decide) (by decide)⟩

/-- Claim C2 (the code contradicts it at nowiki): the nowiki kind is
registered in block content and in static phrasing content, yet its variant
declares no type discriminant at all — its interface is empty — while every
other registered kind's variant declares a literal type tag. -/
theorem nowiki_missing_discriminant :
    declaredTag Kind.nowiki = none ∧
      Kind.nowiki ∈ blockContent ∧ Kind.nowiki ∈ staticPhrasingContent ∧
      allRegisteredKinds.all
        (fun k => decide (k = Kind.nowiki) || (declaredTag k).isSome) = true := by
  decide

/-- Claim C3: in every well-formed image or file node the enumerated
attributes kind, location, aligntment (the source's spelling of alignment)
and size match their declared literal or parametrized forms; the aligntment
values are exactly the eight declared literals, and for size,
"upright=0.6" and the px forms are valid while "wide" and other strings
are not. -/
theorem image_file_enumerated_attributes :
    (∀ t : WtNode, wfNode t = true → t.kind = Kind.image ∨ t.kind = Kind.file →
      optOK kindAttrOK t.attrs.kind = true ∧
      optOK locationOK t.attrs.location = true ∧
      optOK aligntmentOK t.attrs.aligntment = true ∧
      optOK sizeOK t.attrs.size = true) ∧
    (∀ s : String, aligntmentOK s = true ↔
      s ∈ (["baseline", "sub", "super", "top", "text-top",
            "middle", "bottom", "text-bottom"] : List String)) ∧
    sizeOK "upright" = true ∧ sizeOK "upright=0.6" = true ∧
    sizeOK "120px" = true ∧ sizeOK "x120px" = true ∧ sizeOK "100x200px" = true ∧
    sizeOK "wide" = false ∧ sizeOK "upright=" = false ∧ sizeOK "px" = false ∧
    sizeOK "12pt" = false := by
  refine ⟨?_, ?_, by decide, by decide, by decide, by decide, by decide,
    by decide, by decide, by decide, by decide⟩
  · intro t h hk
    have ha := wfNode_attrs t h
    rcases hk with hk | hk <;> rw [hk] at ha <;>
      simp only [attrsOK, imageScalarOK, Bool.and_eq_true] at ha <;>
      exact ⟨by tauto, by tauto, by tauto, by tauto⟩
  · intro s
    simp [aligntmentOK]

/-- Witness for C3 at a concrete image node with size "upright=0.6". -/
theorem image_file_enumerated_attributes_witness :
    wfNode exSizedImage = true ∧ optOK sizeOK exSizedImage.attrs.size = true :=
  ⟨by decide,
    (image_file_enumerated_attributes.1 exSizedImage (by decide) (Or.inl rfl)).2.2.2⟩

/-- Claim C4: every well-formed heading carries a depth satisfying the
declared literal union 1..6, that union is exactly the integers in [1,6],
and depths 0 and 7 are rejected while 1 through 6 are accepted. -/
theorem heading_depth_range :
    (∀ t : WtNode, wfNode t = true → t.kind = Kind.heading →
      reqOK headingDepthOK t.attrs.depth = true) ∧
    (∀ d : Int, headingDepthOK d = true ↔ 1 ≤ d ∧ d ≤ 6) ∧
    headingDepthOK 0 = false ∧ headingDepthOK 7 = false ∧
    headingDepthOK 1 = true ∧ headingDepthOK 2 = true ∧ headingDepthOK 3 = true ∧
    headingDepthOK 4 = true ∧ headingDepthOK 5 = true ∧ headingDepthOK 6 = true := by
  refine ⟨?_, ?_, by decide, by decide, by decide, by decide, by decide,
    by decide, by decide, by decide⟩
  · intro t h hk
    have ha := wfNode_attrs t h
    rw [hk] at ha
    exact ha
  · intro d
    simp only [headingDepthOK, Bool.or_eq_true, decide_eq_true_eq]
    omega

/-- Witness for C4 at a concrete depth-3 heading. -/
theorem heading_depth_range_witness :
    wfNode exHeading = true ∧ reqOK headingDepthOK exHeading.attrs.depth = true :=
  ⟨by decide, heading_depth_range.1 exHeading (by decide) rfl⟩

/-- Claim C5: every child of a well-formed gallery is an image node; the
file kind is not a legal gallery child, so in the gallery holding one image
and one file child it is exactly the file child that violates the
constraint, and that gallery is not well-formed. -/
theorem gallery_children_images :
    (∀ t : WtNode, wfShape t = true → t.kind = Kind.gallery →
      t.children.all (fun c => decide (c.kind = Kind.image)) = true) ∧
    childAllowed Kind.gallery Kind.image = true ∧
    childAllowed Kind.gallery Kind.file = false ∧
    childAllowed Kind.gallery exGalleryImage.kind = true ∧
    childAllowed Kind.gallery exFileNode.kind = false ∧
    wfShape exMixedGallery = false := by
  refine ⟨?_, by decide, by decide, by decide, by decide, by decide⟩
  · intro t h hk
    have h1 := wfShape_children t h
    rw [hk] at h1
    rw [List.all_eq_true]
    intro c hc
    have h2 := childAllowed_of_childrenKindsOK h1 hc
    revert h2
    generalize c.kind = q
    revert q
    decide

/-- Witness for C5 at a gallery whose only child is an image. -/
theorem gallery_children_images_witness :
    wfShape exGallery = true ∧
      exGallery.children.all (fun c => decide (c.kind = Kind.image)) = true :=
  ⟨by decide, gallery_children_images.1 exGallery (by decide) rfl⟩

/-- Claim C6: tables nest in exactly three strict levels — every child of a
well-formed table is a tableRow, every child of a well-formed tableRow is a
tableCell, table content is exactly the tableRow kind, row content exactly
the tableCell kind, and no other kind is legal at either level. -/
theorem table_strict_nesting :
    (∀ t : WtNode, wfShape t = true → t.kind = Kind.table →
      t.children.all (fun c => decide (c.kind = Kind.tableRow)) = true) ∧
    (∀ t : WtNode, wfShape t = true → t.kind = Kind.tableRow →
      t.children.all (fun c => decide (c.kind = Kind.tableCell)) = true) ∧
    tableContent = [Kind.tableRow] ∧ rowContent = [Kind.tableCell] ∧
    (∀ k : Kind, childAllowed Kind.table k = true ↔ k = Kind.tableRow) ∧
    (∀ k : Kind, childAllowed Kind.tableRow k = true ↔ k = Kind.tableCell) := by
  refine ⟨?_, ?_, rfl, rfl, by decide, by decide⟩
  · intro t h hk
    have h1 := wfShape_children t h
    rw [hk] at h1
    rw [List.all_eq_true]
    intro c hc
    have h2 := childAllowed_of_childrenKindsOK h1 hc
    revert h2
    generalize c.kind = q
    revert q
    decide
  · intro t h hk
    have h1 := wfShape_children t h
    rw [hk] at h1
    rw [List.all_eq_true]
    intro c hc
    have h2 := childAllowed_of_childrenKindsOK h1 hc
    revert h2
    generalize c.kind = q
    revert q
    decide

/-- Witness for C6 at a concrete one-cell table. -/
theorem table_strict_nesting_witness :
    wfShape exTable = true ∧
      exTable.children.all (fun c => decide (c.kind = Kind.tableRow)) = true :=
  ⟨by decide, table_strict_nesting.1 exTable (by decide) rfl⟩

/-- Claim C7: phrasing content is static phrasing content plus exactly link
and linkReference — the source builds PhrasingContentMap by extending
StaticPhrasingContentMap with those two kinds, and extensionally a kind is
phrasing content precisely when it is static phrasing content or one of the
two interactive kinds. -/
theorem phrasing_is_static_plus_interactive :
    phrasingContent = staticPhrasingContent ++ [Kind.link, Kind.linkReference] ∧
    (∀ k : Kind, k ∈ phrasingContent ↔
      k ∈ staticPhrasingContent ∨ k = Kind.link ∨ k = Kind.linkReference) :=
  ⟨rfl, by decide⟩

/-- Claim C8: within definition content, a well-formed definition node is
childless and carries the Association identifier and the Resource url, while
a well-formed footnoteDefinition carries the Association identifier and may
be a parent whose every child is block or definition content; the concrete
footnote definition below is well-formed with a nonempty children
sequence. -/
theorem definition_shapes :
    (∀ t : WtNode, wfNode t = true → t.kind = Kind.definition →
      t.children.isEmpty = true ∧ t.attrs.identifier.isSome = true ∧
        t.attrs.url.isSome = true) ∧
    (∀ t : WtNode, wfNode t = true → t.kind = Kind.footnoteDefinition →
      t.attrs.identifier.isSome = true ∧
      t.children.all
        (fun c => decide (c.kind ∈ blockContent ∨ c.kind ∈ definitionContent)) = true) ∧
    definitionContent = [Kind.definition, Kind.footnoteDefinition] ∧
    wfNode exFootnoteDef = true ∧ exFootnoteDef.children.isEmpty = false := by
  refine ⟨?_, ?_, rfl, by decide, by decide⟩
  · intro t h hk
    have h1 := wfNode_children t h
    have ha := wfNode_attrs t h
    rw [hk] at h1 ha
    have hempty := childrenKindsOK_leaf Kind.definition t.children rfl h1
    simp only [attrsOK, Bool.and_eq_true] at ha
    exact ⟨by rw [hempty]; rfl, ha.1, ha.2⟩
  · intro t h hk
    have h1 := wfNode_children t h
    have ha := wfNode_attrs t h
    rw [hk] at h1 ha
    refine ⟨ha, ?_⟩
    rw [List.all_eq_true]
    intro c hc
    have h2 := childAllowed_of_childrenKindsOK h1 hc
    revert h2
    generalize c.kind = q
    revert q
    decide

/-- Witness for C8 at a concrete link definition. -/
theorem definition_shapes_witness :
    wfNode exDefinition = true ∧ exDefinition.children.isEmpty = true :=
  ⟨by decide, (definition_shapes.1 exDefinition (by decide) rfl).1⟩

/-- Claim C9: the file variant refines the image variant — an image
attribute record extended with the four file-only attributes left absent is
valid for file exactly when it is valid for image, and the source-derived
FileAttrs record is in field-for-field bijection with the claim-side record
that spells out every image attribute unchanged plus page, thumbtime, start
and end. -/
theorem file_refines_image :
    (∀ a : ImageAttrs, fileAttrsValid (fileOfImageAttrs a) = imageAttrsValid a) ∧
    (∀ f : FileAttrs, (FileAttrs.toSpecRec f).toFileAttrs = f) ∧
    (∀ g : FileAttrsSpec, FileAttrs.toSpecRec (FileAttrsSpec.toFileAttrs g) = g) := by
  refine ⟨?_, ?_, ?_⟩
  · intro a
    simp [fileAttrsValid, fileOfImageAttrs, optOK]
  · intro f
    rfl
  · intro g
    rfl

/-- Claim C10: node containment is not limited to the children sequence —
every well-formed redirect is childless and stores a link node in its value
attribute, and the concrete well-formed image node below stores a link node
in its link attribute and a phrasing-content node in its caption attribute
while having no children. -/
theorem node_valued_attributes :
    (∀ t : WtNode, wfNode t = true → t.kind = Kind.redirect →
      t.children.isEmpty = true ∧ ∃ v, t.target = some v ∧ v.kind = Kind.link) ∧
    (wfNode exImageWithLink = true ∧ exImageWithLink.kind = Kind.image ∧
      exImageWithLink.children.isEmpty = true ∧
      (∃ l, exImageWithLink.linkA = some l ∧ l.kind = Kind.link) ∧
      (∃ c, exImageWithLink.captionA = some c ∧ c.kind ∈ phrasingContent)) := by
  constructor
  · intro t h hk
    have h1 := wfNode_children t h
    have ha := wfNode_attrs t h
    rw [hk] at h1 ha
    have hempty := childrenKindsOK_leaf Kind.redirect t.children rfl h1
    refine ⟨by rw [hempty]; rfl, ?_⟩
    cases htg : t.target with
    | none =>
      rw [htg] at ha
      simp [attrsOK] at ha
    | some v =>
      rw [htg] at ha
      refine ⟨v, rfl, ?_⟩
      simpa [attrsOK] using ha
  · refine ⟨by decide, rfl, rfl, ⟨exPlainLink, rfl, rfl⟩, ?_⟩
    exact ⟨.mk .text [] (some "A caption") none none none {}, rfl, by decide⟩

/-- Witness for C10 at a concrete redirect node. -/
theorem node_valued_attributes_witness :
    wfNode exRedirect = true ∧ exRedirect.children.isEmpty = true :=
  ⟨by decide, (node_valued_attributes.1 exRedirect (by decide) rfl).1⟩

end Wtast
